import Mathlib

/-!
# Verification of the hierarchical multi-datacenter RL environment

Shallow embedding of the Python environment core from
`drl-manager/gym_cloudsimplus/envs/` (hierarchical_multidc_env.py,
joint_training_env.py, hierarchical_multidc_pettingzoo.py), together with
proofs settling the specification claims about action masking, padding and
trimming, action remapping, the step() error/remote-call protocol, the
joint-training reward decomposition, and the PettingZoo state() flattening.
-/

namespace GreenSched

/-! ## Action-masking engine

`HierarchicalMultiDCEnv.get_local_action_masks` (hierarchical_multidc_env.py,
lines 843-873): the non-fallback branches computed once the cached local
observation has been fetched.  The mask is a boolean array of length
`n = local_action_space.n = max_vms + 1`; `dc_vm_count` is the actual VM
count of the datacenter; `vm_available_pes` is the (padded) cached vector.
-/

/-- Whether VM `i` qualifies for the next cloudlet: `available_pes >= next_cloudlet_pes`
(hierarchical_multidc_env.py line 861). Out-of-range reads yield the pad fill 0. -/
def vmQualifies (vm_available_pes : List Int) (next_cloudlet_pes : Int) (i : Nat) : Bool :=
  decide (next_cloudlet_pes ≤ (vm_available_pes.getD i 0))

/-- Embedding of `HierarchicalMultiDCEnv.get_local_action_masks`, the part after the cached
observation is extracted (lines 843-873).  Index-wise rendering of the
imperative mask mutation:
* queue empty or invalid next task (`waiting_cloudlets == 0 or next_cloudlet_pes == 0`):
  `mask[0] = True`, everything else `False`;
* otherwise: `mask[0] = False`, `mask[i+1] = True` iff VM `i` (for
  `i < min(len(vm_available_pes), dc_vm_count)`) has enough available PEs;
* if no VM qualified, the fallback sets `mask[0] = False` and
  `mask[1 : dc_vm_count+1] = True` (entries beyond stay `False`). -/
def get_local_action_masks (n dc_vm_count : Nat) (vm_available_pes : List Int)
    (waiting_cloudlets next_cloudlet_pes : Int) : List Bool :=
  if waiting_cloudlets = 0 ∨ next_cloudlet_pes = 0 then
    (List.range n).map (fun j => decide (j = 0))
  else if (List.range (min vm_available_pes.length dc_vm_count)).any
      (vmQualifies vm_available_pes next_cloudlet_pes) then
    (List.range n).map (fun j =>
      if j = 0 then false
      else if j - 1 < min vm_available_pes.length dc_vm_count then
        vmQualifies vm_available_pes next_cloudlet_pes (j - 1)
      else false)
  else
    (List.range n).map (fun j => decide (1 ≤ j ∧ j ≤ dc_vm_count))

/-! ## Padding / trimming

`HierarchicalMultiDCEnv._pad_vector` (lines 627-643) and the PettingZoo
adapter's trimming `local_obs[...][:dc_vm_count]`
(hierarchical_multidc_pettingzoo.py lines 410-420). -/

/-- Embedding of `HierarchicalMultiDCEnv._pad_vector`: return the vector unchanged at the
target length, slice overflow away, otherwise fill the tail with `fill_value`. -/
def pad_vector {α : Type} (values : List α) (target_len : Nat) (fill_value : α) : List α :=
  let current_len := values.length
  if current_len = target_len then values
  else if current_len > target_len then values.take target_len
  else values ++ List.replicate (target_len - current_len) fill_value

/-- The PettingZoo adapter's trim `vec[:true_count]`
(hierarchical_multidc_pettingzoo.py, `_hierarchical_to_flat_observations`). -/
def trim_vector {α : Type} (values : List α) (true_count : Nat) : List α :=
  values.take true_count

/-! ## step(): global-action trimming and local-action remap
(hierarchical_multidc_env.py lines 447-482). -/

/-- Global-action trimming in `step()` (lines 455-459): if the agent's list is
longer than the waiting-queue count, slice it down; otherwise leave it alone. -/
def trim_global_actions {α : Type} (global_actions : List α) (num_available : Nat) :
    List α :=
  if global_actions.length > num_available then global_actions.take num_available
  else global_actions

/-- Local-action remap in `step()` (line 470): `target_vm_id = int(agent_action) - 1`. -/
def remap_local_action (a : Int) : Int := a - 1

/-! ## The step() control flow: validation, remote calls and error surfacing

`HierarchicalMultiDCEnv.step` (hierarchical_multidc_env.py lines 402-524),
embedded as a function from the environment state, the behaviour of the
remote (Py4J) endpoint and the caller's action structure to the list of
remote calls actually issued, the resulting environment state, and either an
error or the payload sent/received. -/

/-- A Python value appearing inside the action structure: either coercible to
an integer by `int(...)` or not. -/
inductive PyVal
  | intVal (n : Int)
  | nonCoercible
deriving DecidableEq

/-- The `action["global"]` field: a list/array of values, or something that is
not list-like (fails the `isinstance` check at line 435). -/
inductive GlobalField
  | listOf (xs : List PyVal)
  | notListLike
deriving DecidableEq

/-- The `action["local"]` field: a dict (items in insertion order), or
something that is not a mapping (fails the `isinstance` check at line 439). -/
inductive LocalField
  | mapOf (items : List (PyVal × PyVal))
  | notMappingLike
deriving DecidableEq

/-- The caller's action structure. -/
structure ActionInput where
  globalField : GlobalField
  localField : LocalField
deriving DecidableEq

/-- One remote (Py4J) call issued by `step()`. -/
inductive RemoteCall
  | getGlobalWaitingCloudletsCount
  | stepCall
deriving DecidableEq

/-- The raw result the remote `step` returns when it does not throw. -/
structure RawStepResult where
  globalReward : Rat
  terminated : Bool
  truncated : Bool
deriving DecidableEq

/-- Behaviour of the remote endpoint during one `step()`: the outcome of
`getGlobalWaitingCloudletsCount()`, the outcome of the remote `step(...)`
call, and whether the raw result parses into observations/rewards/info. -/
structure RemoteEnv where
  waitingCount : Except Unit Nat
  stepOutcome : Except Unit RawStepResult
  parseOk : Bool

/-- The error `step()` raises, by kind and message site. -/
inductive StepError
  | runtimeNoConnection
  | valueInvalidActionFormat
  | valueInvalidLocalAction
  | valueGlobalCoercion
  | runtimeStepFailed
  | runtimeParseFailed
deriving DecidableEq

/-- The mutable episode state of the environment
(`java_env`, `current_step`, `episode_reward`, `done`). -/
structure EnvState where
  connected : Bool
  current_step : Nat
  episode_reward : Rat
  done : Bool
deriving DecidableEq

/-- What a successful `step()` transmitted and received. -/
structure StepSuccess where
  globalActionsSent : List Int
  localActionsSent : List (Int × Int)
  result : RawStepResult
deriving DecidableEq

/-- Python `int(x)` on an action element. -/
def coerceInt : PyVal → Except Unit Int
  | .intVal n => .ok n
  | .nonCoercible => .error ()

/-- The comprehension `[int(x) for x in global_actions]` (line 481): fails at
the first non-coercible element. -/
def coerceAll : List PyVal → Except Unit (List Int)
  | [] => .ok []
  | x :: xs =>
    match coerceInt x with
    | .error e => .error e
    | .ok n =>
      match coerceAll xs with
      | .error e => .error e
      | .ok ns => .ok (n :: ns)

/-- The local-action conversion loop (lines 466-475): for each
`(dc_id, agent_action)` item, compute `int(agent_action) - 1` and key it by
`int(dc_id)`; any coercion failure aborts with the wrapped `ValueError`. -/
def convertLocalActions : List (PyVal × PyVal) → Except Unit (List (Int × Int))
  | [] => .ok []
  | (k, v) :: rest =>
    match coerceInt v with
    | .error e => .error e
    | .ok av =>
      match coerceInt k with
      | .error e => .error e
      | .ok kk =>
        match convertLocalActions rest with
        | .error e => .error e
        | .ok tail => .ok ((kk, remap_local_action av) :: tail)

/-- Lines 448-453: `getGlobalWaitingCloudletsCount()`, with a failure logged
and replaced by `num_available = 0` ("Continue with 0 if this fails"). -/
def numAvailable (remote : RemoteEnv) : Nat :=
  match remote.waitingCount with
  | .ok c => c
  | .error _ => 0

/-- Embedding of `HierarchicalMultiDCEnv.step` (lines 402-524) as a protocol trace:
1. raise `RuntimeError` if `java_env is None` (lines 425-428);
2. validate the shape of the `global`/`local` fields, raising `ValueError`
   before any remote call (lines 430-445);
3. call `getGlobalWaitingCloudletsCount()` remotely; a failure is logged and
   replaced by `num_available = 0` (lines 447-453);
4. trim the global actions to `num_available` (lines 455-459);
5. convert local actions, raising `ValueError` on a non-coercible element
   (lines 461-475);
6. coerce all (trimmed) global elements with `int(...)` (line 481);
7. call the remote `step(...)`; a throw becomes `RuntimeError` (lines 484-495);
8. parse the raw result; a failure becomes `RuntimeError` (lines 497-509);
9. on success update `current_step`, `episode_reward` and `done`
   (lines 511-514). -/
def stepExec (env : EnvState) (remote : RemoteEnv) (action : ActionInput) :
    List RemoteCall × EnvState × Except StepError StepSuccess :=
  if env.connected = false then
    ([], env, .error .runtimeNoConnection)
  else
    match action.globalField, action.localField with
    | .notListLike, _ => ([], env, .error .valueInvalidActionFormat)
    | .listOf _, .notMappingLike => ([], env, .error .valueInvalidActionFormat)
    | .listOf global_actions, .mapOf local_items =>
      match convertLocalActions local_items with
      | .error _ =>
        ([.getGlobalWaitingCloudletsCount], env, .error .valueInvalidLocalAction)
      | .ok local_actions_python =>
        match coerceAll (trim_global_actions global_actions (numAvailable remote)) with
        | .error _ =>
          ([.getGlobalWaitingCloudletsCount], env, .error .valueGlobalCoercion)
        | .ok global_actions_python =>
          match remote.stepOutcome with
          | .error _ =>
            ([.getGlobalWaitingCloudletsCount, .stepCall], env,
              .error .runtimeStepFailed)
          | .ok result =>
            if remote.parseOk = false then
              ([.getGlobalWaitingCloudletsCount, .stepCall], env,
                .error .runtimeParseFailed)
            else
              ([.getGlobalWaitingCloudletsCount, .stepCall],
                { env with
                    current_step := env.current_step + 1
                    episode_reward := env.episode_reward + result.globalReward
                    done := result.terminated || result.truncated },
                .ok ⟨global_actions_python, local_actions_python, result⟩)

/-! ## Joint-training adapter reward bookkeeping

`JointTrainingEnv.step` (joint_training_env.py, lines 186-194). -/

/-- Embedding of `np.mean` on a non-empty list of rewards: sum divided by length. -/
def np_mean (xs : List Rat) : Rat := xs.sum / xs.length

/-- The per-step reward info fields the joint-training adapter reports. -/
structure JointStepRewardInfo where
  local_reward : Rat
  total_reward : Rat
deriving DecidableEq

/-- Embedding of `JointTrainingEnv.step` lines 186-194: if the local-rewards dict is
non-empty (Python truthiness), `local_reward = np.mean(values)` and
`total_reward = global + local_reward`; otherwise `local_reward = 0.0` and
`total_reward = global`. -/
def joint_step_reward_info (global_reward : Rat) (local_rewards : List Rat) :
    JointStepRewardInfo :=
  if local_rewards ≠ [] then
    { local_reward := np_mean local_rewards
      total_reward := global_reward + np_mean local_rewards }
  else
    { local_reward := 0
      total_reward := global_reward }

/-! ## PettingZoo adapter state() flattening

`HierarchicalMultiDCParallelEnv.state` and `_flatten_observation`
(hierarchical_multidc_pettingzoo.py, lines 599-642). -/

/-- An agent observation as `_flatten_observation` sees it: a dict from key
names to (already flattened) numeric arrays. -/
abbrev Obs := List (String × List Rat)

/-- Code-point lexicographic comparison of character sequences: the order
Python's `sorted` applies to `str` keys. -/
def charListLE : List Char → List Char → Bool
  | [], _ => true
  | _ :: _, [] => false
  | a :: as, b :: bs => if a < b then true else if b < a then false else charListLE as bs

/-- Python's `str` comparison, on the key names' character data. -/
def keyLE (s t : String) : Bool := charListLE s.data t.data

/-- Insert a key into an already sorted key list (ingredient of the model of
Python's `sorted`). -/
def insertKey (k : String) : List String → List String
  | [] => [k]
  | x :: xs => if keyLE k x then k :: x :: xs else x :: insertKey k xs

/-- Python's `sorted(...)` on a key list, as insertion sort. -/
def sortKeys : List String → List String
  | [] => []
  | x :: xs => insertKey x (sortKeys xs)

/-- Embedding of `HierarchicalMultiDCParallelEnv._flatten_observation` (lines 623-642):
iterate `sorted(obs.keys())` and extend with each key's values. -/
def flatten_observation (obs : Obs) : List Rat :=
  (sortKeys (obs.map Prod.fst)).flatMap (fun k => (obs.lookup k).getD [])

/-- Embedding of `HierarchicalMultiDCParallelEnv.state` (lines 599-621): the global agent's
flattened observation followed by each local agent's flattened observation in
datacenter-index order. -/
def state_vector (global_obs : Obs) (local_obs : List Obs) : List Rat :=
  flatten_observation global_obs ++ local_obs.flatMap flatten_observation

/-- Modelled from the spec's words for the state()-ordering claim: a vector
ordered primarily by sorted observation-key name and then by agent index
(global agent first, then local agents). -/
def state_vector_key_major (global_obs : Obs) (local_obs : List Obs) : List Rat :=
  (sortKeys (((global_obs :: local_obs).flatMap (fun o => o.map Prod.fst)).dedup)).flatMap
    (fun k => (global_obs :: local_obs).flatMap (fun o => (o.lookup k).getD []))

/-- Per-agent flattening restated independently of dictionary lookup: for each
key in sorted order, the values of the pairs carrying that key. -/
def flatten_observation_spec (obs : Obs) : List Rat :=
  (sortKeys (obs.map Prod.fst)).flatMap
    (fun k => (obs.filter (fun p => p.1 == k)).flatMap Prod.snd)

end GreenSched

namespace GreenSched

/-! ## Theorems about the masking engine -/

/-- Reading index `j < n` out of a mask built as `(List.range n).map f`. -/
lemma getD_range_map (f : Nat → Bool) {n j : Nat} (hj : j < n) :
    ((List.range n).map f).getD j false = f j := by
  rw [List.getD_eq_getElem?_getD, List.getElem?_map, List.getElem?_range hj]
  rfl

/-- Reading an index past the end of a list with `getD` yields the default. -/
lemma getD_out_of_range {α : Type} (l : List α) (d : α) {j : Nat}
    (hj : l.length ≤ j) : l.getD j d = d := by
  rw [List.getD_eq_getElem?_getD, List.getElem?_eq_none (by simpa using hj)]
  rfl

/-- C2: queue empty (or invalid next task) forces the mask
`[True, False, ..., False]`: only action 0 is legal. -/
theorem mask_queue_empty_only_noassign
    (n dc_vm_count : Nat) (pes : List Int) (w p : Int)
    (h : w = 0 ∨ p = 0) :
    (get_local_action_masks n dc_vm_count pes w p).getD 0 false = (decide (0 < n)) ∧
    ∀ j, 0 < j → (get_local_action_masks n dc_vm_count pes w p).getD j false = false := by
  unfold get_local_action_masks
  rw [if_pos h]
  constructor
  · cases n with
    | zero => simp
    | succ m => rw [getD_range_map (f := fun j => decide (j = 0)) (Nat.succ_pos m)]; simp
  · intro j hj
    rcases Nat.lt_or_ge j n with hlt | hge
    · rw [getD_range_map (f := fun j => decide (j = 0)) hlt]
      simp [Nat.pos_iff_ne_zero.mp hj]
    · exact getD_out_of_range _ _ (by simpa using hge)

/-- Witness for `mask_queue_empty_only_noassign` at a concrete datacenter state. -/
theorem mask_queue_empty_only_noassign_witness :
    (get_local_action_masks 3 2 [4, 4] 0 5).getD 0 false = decide ((0 : Nat) < 3) ∧
    (get_local_action_masks 3 2 [4, 4] 0 5).getD 1 false = false ∧
    (get_local_action_masks 3 2 [4, 4] 0 5).getD 2 false = false := by
  have h := mask_queue_empty_only_noassign 3 2 [4, 4] 0 5 (Or.inl rfl)
  exact ⟨h.1, h.2 1 (by decide), h.2 2 (by decide)⟩

/-- C1: with a non-empty queue and a valid next task, action 0 is illegal;
action `i+1` (for each actual VM index `i`) is legal iff VM `i` has at least
`next_cloudlet_pes` available PEs, except that when no VM qualifies the
fallback makes every VM-assignment action `1..dc_vm_count` legal while
action 0 stays illegal. -/
theorem mask_queue_nonempty_policy
    (n dc_vm_count : Nat) (pes : List Int) (w p : Int)
    (hw : 0 < w) (hp : 0 < p)
    (hk : dc_vm_count ≤ pes.length) (hn : pes.length < n) :
    (get_local_action_masks n dc_vm_count pes w p).getD 0 false = false ∧
    ((∃ i, i < dc_vm_count ∧ p ≤ pes.getD i 0) →
      ∀ i, i < dc_vm_count →
        (get_local_action_masks n dc_vm_count pes w p).getD (i + 1) false
          = decide (p ≤ pes.getD i 0)) ∧
    ((∀ i, i < dc_vm_count → ¬ p ≤ pes.getD i 0) →
      ∀ j, 1 ≤ j → j ≤ dc_vm_count →
        (get_local_action_masks n dc_vm_count pes w p).getD j false = true) := by
  have hcond : ¬ (w = 0 ∨ p = 0) := by
    push_neg
    exact ⟨ne_of_gt hw, ne_of_gt hp⟩
  have hmin : min pes.length dc_vm_count = dc_vm_count := Nat.min_eq_right hk
  have h0n : 0 < n := Nat.lt_of_le_of_lt (Nat.zero_le _) hn
  unfold get_local_action_masks
  rw [if_neg hcond, hmin]
  have hval : ((List.range dc_vm_count).any (vmQualifies pes p) = true) ↔
      ∃ i, i < dc_vm_count ∧ p ≤ pes.getD i 0 := by
    rw [List.any_eq_true]
    constructor
    · rintro ⟨i, hi, hq⟩
      exact ⟨i, List.mem_range.mp hi, of_decide_eq_true hq⟩
    · rintro ⟨i, hi, hq⟩
      exact ⟨i, List.mem_range.mpr hi, decide_eq_true hq⟩
  by_cases hv : (List.range dc_vm_count).any (vmQualifies pes p) = true
  · rw [if_pos hv]
    refine ⟨?_, ?_, ?_⟩
    · rw [getD_range_map _ h0n]
      simp
    · intro _ i hi
      have hi1 : i + 1 < n := by omega
      rw [getD_range_map _ hi1]
      simp only [Nat.succ_ne_zero, if_false, Nat.add_sub_cancel]
      rw [if_pos hi]
      rfl
    · intro hnone
      exfalso
      rcases hval.mp hv with ⟨i, hi, hq⟩
      exact hnone i hi hq
  · rw [if_neg hv]
    refine ⟨?_, ?_, ?_⟩
    · rw [getD_range_map _ h0n]
      simp
    · intro hex
      exact absurd (hval.mpr hex) hv
    · intro _ j hj1 hjk
      have hjn : j < n := by omega
      rw [getD_range_map _ hjn]
      simp [hj1, hjk]

/-- Witness for `mask_queue_nonempty_policy`: 4 actions, 3 VMs with
available PEs `[2, 5, 0]`, queue of 1 cloudlet needing 3 PEs. -/
theorem mask_queue_nonempty_policy_witness :
    (get_local_action_masks 4 3 [2, 5, 0] 1 3).getD 0 false = false ∧
    (get_local_action_masks 4 3 [2, 5, 0] 1 3).getD 2 false = true ∧
    (get_local_action_masks 4 3 [2, 5, 0] 1 3).getD 1 false = false := by
  have h := mask_queue_nonempty_policy 4 3 [2, 5, 0] 1 3
    (by decide) (by decide) (by decide) (by decide)
  have hex : ∃ i, i < 3 ∧ (3 : Int) ≤ ([2, 5, 0] : List Int).getD i 0 :=
    ⟨1, by decide, by decide⟩
  refine ⟨h.1, ?_, ?_⟩
  · have := h.2.1 hex 1 (by decide)
    simpa using this
  · have := h.2.1 hex 0 (by decide)
    simpa using this

/-! ## Theorems about padding / trimming and action translation -/

/-- C3: padding a length-`k` vector to `max_vms ≥ k` with any fill value and
trimming back to `k` reproduces the original vector exactly, so indices below
the true count never see the fill value. -/
theorem pad_trim_roundtrip {α : Type} (v : List α) (k max_vms : Nat) (fill : α)
    (hk : v.length = k) (hmax : k ≤ max_vms) :
    trim_vector (pad_vector v max_vms fill) k = v := by
  subst hk
  unfold pad_vector trim_vector
  by_cases heq : v.length = max_vms
  · rw [if_pos heq]
    exact List.take_length v
  · rw [if_neg heq, if_neg (by omega)]
    exact List.take_left v _

/-- Witness for `pad_trim_roundtrip`: `[5, 7]` padded to length 4 with fill 9
and trimmed back to length 2. -/
theorem pad_trim_roundtrip_witness :
    trim_vector (pad_vector ([5, 7] : List Int) 4 9) 2 = [5, 7] :=
  pad_trim_roundtrip [5, 7] 2 4 9 (by decide) (by decide)

/-- C4: the global action list is truncated to the waiting-queue count when it
is longer (extra elements dropped, no padding), and passed through unchanged
when its length equals the count. -/
theorem global_actions_trimming (a : List Int) (m : Nat) :
    (m < a.length →
      trim_global_actions a m = a.take m ∧ (trim_global_actions a m).length = m) ∧
    (a.length = m → trim_global_actions a m = a) := by
  constructor
  · intro h
    unfold trim_global_actions
    rw [if_pos h]
    exact ⟨rfl, List.length_take_of_le (Nat.le_of_lt h)⟩
  · intro h
    unfold trim_global_actions
    rw [if_neg (by omega)]

/-- Witness for `global_actions_trimming`: a length-3 action list against a
queue of 2 and against a queue of exactly 3. -/
theorem global_actions_trimming_witness :
    trim_global_actions ([0, 1, 0] : List Int) 2 = [0, 1] ∧
    trim_global_actions ([0, 1, 0] : List Int) 3 = [0, 1, 0] := by
  refine ⟨?_, (global_actions_trimming [0, 1, 0] 3).2 (by decide)⟩
  have h := (global_actions_trimming ([0, 1, 0] : List Int) 2).1 (by decide)
  rw [h.1]
  decide

/-- C5: the local-action remap `a ↦ a - 1` sends 0 to -1 and `vm_count` to
`vm_count - 1`, and is a bijection from `[0, vm_count]` onto
`[-1, vm_count - 1]`. -/
theorem remap_local_action_bijection (vm_count : Nat) :
    remap_local_action 0 = -1 ∧
    remap_local_action vm_count = (vm_count : Int) - 1 ∧
    Set.BijOn remap_local_action
      (Set.Icc (0 : Int) vm_count) (Set.Icc (-1 : Int) ((vm_count : Int) - 1)) := by
  refine ⟨rfl, rfl, ?_, ?_, ?_⟩
  · intro a ha
    rw [Set.mem_Icc] at ha ⊢
    unfold remap_local_action
    omega
  · intro a _ b _ hab
    unfold remap_local_action at hab
    omega
  · intro b hb
    rw [Set.mem_Icc] at hb
    refine ⟨b + 1, ?_, ?_⟩
    · rw [Set.mem_Icc]
      omega
    · unfold remap_local_action
      omega

/-! ## Theorems about the step() protocol -/

/-- Trimming any action list against an empty queue leaves nothing. -/
lemma trim_global_actions_zero {α : Type} (gs : List α) :
    trim_global_actions gs 0 = [] := by
  unfold trim_global_actions
  cases gs <;> simp

/-- C10: calling `step()` while no simulation-client connection exists raises
`RuntimeError` immediately: no remote call is issued and `current_step`,
`episode_reward` and `done` are left unchanged. -/
theorem step_unconnected_raises (env : EnvState) (remote : RemoteEnv)
    (action : ActionInput) (h : env.connected = false) :
    stepExec env remote action = ([], env, .error .runtimeNoConnection) := by
  unfold stepExec
  rw [if_pos h]

/-- Witness for `step_unconnected_raises` at a concrete pre-reset state. -/
theorem step_unconnected_raises_witness :
    stepExec ⟨false, 3, 7, false⟩ ⟨.ok 2, .error (), true⟩
        ⟨.listOf [.intVal 0], .mapOf []⟩
      = ([], ⟨false, 3, 7, false⟩, .error .runtimeNoConnection) :=
  step_unconnected_raises ⟨false, 3, 7, false⟩ ⟨.ok 2, .error (), true⟩
    ⟨.listOf [.intVal 0], .mapOf []⟩ rfl

/-- An initialized environment state used in concrete step() scenarios. -/
def envReady : EnvState := ⟨true, 0, 0, false⟩

/-- A remote endpoint on which every call succeeds. -/
def remoteAllOk : RemoteEnv := ⟨.ok 2, .ok ⟨1, false, false⟩, true⟩

/-- A well-shaped action whose local part holds a non-coercible VM value. -/
def actionBadLocalElem : ActionInput :=
  ⟨.listOf [.intVal 0], .mapOf [(.intVal 0, .nonCoercible)]⟩

/-- C6 counterexample: a `ValueError`-kind failure caused by a non-coercible
local element is raised only after the remote
`getGlobalWaitingCloudletsCount()` call has been issued, so the claim that
every such failure precedes any remote call is false. -/
theorem step_value_error_after_remote_call :
    (stepExec envReady remoteAllOk actionBadLocalElem).2.2
        = .error .valueInvalidLocalAction ∧
    (stepExec envReady remoteAllOk actionBadLocalElem).1
        = [.getGlobalWaitingCloudletsCount] :=
  ⟨rfl, rfl⟩

/-- C6 amended: malformed `global`/`local` *shapes* raise `ValueError` before
any remote call, while non-coercible *element values* raise `ValueError`
after the waiting-count query but before the remote `step` call. -/
theorem step_action_validation_sites (env : EnvState) (remote : RemoteEnv)
    (action : ActionInput) (hc : env.connected = true) :
    ((action.globalField = .notListLike ∨ action.localField = .notMappingLike) →
      stepExec env remote action = ([], env, .error .valueInvalidActionFormat)) ∧
    (∀ gs items, action.globalField = .listOf gs → action.localField = .mapOf items →
      convertLocalActions items = .error () →
      stepExec env remote action
        = ([.getGlobalWaitingCloudletsCount], env, .error .valueInvalidLocalAction)) ∧
    (∀ gs items lj, action.globalField = .listOf gs →
      action.localField = .mapOf items →
      convertLocalActions items = .ok lj →
      coerceAll (trim_global_actions gs (numAvailable remote)) = .error () →
      stepExec env remote action
        = ([.getGlobalWaitingCloudletsCount], env, .error .valueGlobalCoercion)) := by
  obtain ⟨gf, lf⟩ := action
  have hnc : ¬ (env.connected = false) := by rw [hc]; simp
  refine ⟨?_, ?_, ?_⟩
  · rintro (hg | hl)
    · cases hg
      unfold stepExec
      rw [if_neg hnc]
    · cases hl
      unfold stepExec
      rw [if_neg hnc]
      cases gf <;> rfl
  · rintro gs items hg hl hconv
    cases hg
    cases hl
    unfold stepExec
    rw [if_neg hnc]
    simp only [hconv]
  · rintro gs items lj hg hl hconv hcoerce
    cases hg
    cases hl
    unfold stepExec
    rw [if_neg hnc]
    simp only [hconv, hcoerce]

/-- Witness for `step_action_validation_sites`: a non-mapping local field on a
connected environment. -/
theorem step_action_validation_sites_witness :
    stepExec envReady remoteAllOk ⟨.listOf [], .notMappingLike⟩
      = ([], envReady, .error .valueInvalidActionFormat) :=
  (step_action_validation_sites envReady remoteAllOk
      ⟨.listOf [], .notMappingLike⟩ rfl).1 (Or.inr rfl)

/-- A remote endpoint whose waiting-count query throws but whose step call
succeeds. -/
def remoteCountFails : RemoteEnv := ⟨.error (), .ok ⟨1, false, false⟩, true⟩

/-- A fully well-formed action: one global routing decision, one local
assignment. -/
def actionWellFormed : ActionInput :=
  ⟨.listOf [.intVal 1], .mapOf [(.intVal 0, .intVal 2)]⟩

/-- C7 counterexample: the waiting-count remote query fails, yet `step()`
completes successfully by silently substituting the default count 0 (which
trims every global action away), so the claim that every remote-call failure
surfaces as an exception is false. -/
theorem step_swallows_count_failure :
    remoteCountFails.waitingCount = .error () ∧
    (stepExec envReady remoteCountFails actionWellFormed).1
        = [.getGlobalWaitingCloudletsCount, .stepCall] ∧
    (stepExec envReady remoteCountFails actionWellFormed).2.2
        = .ok ⟨[], [(0, 1)], ⟨1, false, false⟩⟩ :=
  ⟨rfl, rfl, rfl⟩

/-- C7 amended: a failure of the remote `step` call or of result parsing is
surfaced as a `RuntimeError`-kind exception, but a failure of the
waiting-count query is swallowed: the count defaults to 0, the global actions
are trimmed to the empty list, and `step()` completes normally. -/
theorem step_remote_failure_surfacing (env : EnvState) (remote : RemoteEnv)
    (gs : List PyVal) (items : List (PyVal × PyVal)) (lj : List (Int × Int))
    (gj : List Int) (hc : env.connected = true)
    (hl : convertLocalActions items = .ok lj)
    (hg : coerceAll (trim_global_actions gs (numAvailable remote)) = .ok gj) :
    (remote.stepOutcome = .error () →
      (stepExec env remote ⟨.listOf gs, .mapOf items⟩).2.2
        = .error .runtimeStepFailed) ∧
    (∀ r, remote.stepOutcome = .ok r → remote.parseOk = false →
      (stepExec env remote ⟨.listOf gs, .mapOf items⟩).2.2
        = .error .runtimeParseFailed) ∧
    (∀ r, remote.waitingCount = .error () → remote.stepOutcome = .ok r →
      remote.parseOk = true →
      (stepExec env remote ⟨.listOf gs, .mapOf items⟩).2.2 = .ok ⟨[], lj, r⟩) := by
  have hnc : ¬ (env.connected = false) := by rw [hc]; simp
  refine ⟨?_, ?_, ?_⟩
  · intro hs
    unfold stepExec
    rw [if_neg hnc]
    simp only [hl, hg, hs]
  · intro r hs hp
    unfold stepExec
    rw [if_neg hnc]
    simp only [hl, hg, hs, hp]
    rfl
  · intro r hw hs hp
    have hnum : numAvailable remote = 0 := by
      unfold numAvailable
      rw [hw]
    have hgj : gj = [] := by
      rw [hnum, trim_global_actions_zero] at hg
      cases hg
      rfl
    cases hgj
    unfold stepExec
    rw [if_neg hnc]
    simp only [hl, hg, hs, hp]
    rfl

/-- Witness for `step_remote_failure_surfacing`: remote step call throws. -/
theorem step_remote_failure_surfacing_witness :
    (stepExec envReady ⟨.ok 1, .error (), true⟩ actionWellFormed).2.2
      = .error .runtimeStepFailed :=
  (step_remote_failure_surfacing envReady ⟨.ok 1, .error (), true⟩
      [.intVal 1] [(.intVal 0, .intVal 2)] [(0, 1)] [1] rfl rfl rfl).1 rfl

/-! ## Theorems about the joint-training reward decomposition -/

/-- C8: the joint-training adapter's reported `total_reward` equals
`global_reward` plus the arithmetic mean of the local rewards, exactly, and
equals `global_reward` alone when the local-rewards mapping is empty. -/
theorem joint_total_reward_decomposition (g : Rat) (ls : List Rat) :
    (ls ≠ [] →
      (joint_step_reward_info g ls).total_reward = g + ls.sum / ls.length) ∧
    (ls = [] → (joint_step_reward_info g ls).total_reward = g) := by
  constructor
  · intro h
    unfold joint_step_reward_info
    rw [if_pos h]
    rfl
  · intro h
    subst h
    rfl

/-- Witness for `joint_total_reward_decomposition`: `global = 1`,
`local = {0: 2, 1: 4}` gives `1 + 3 = 4`; empty local rewards give the
global reward alone. -/
theorem joint_total_reward_decomposition_witness :
    (joint_step_reward_info 1 [2, 4]).total_reward = 4 ∧
    (joint_step_reward_info 5 []).total_reward = 5 := by
  have h1 := (joint_total_reward_decomposition 1 [2, 4]).1 (by decide)
  have h2 := (joint_total_reward_decomposition 5 []).2 rfl
  refine ⟨?_, h2⟩
  rw [h1]
  norm_num

/-! ## Theorems about the PettingZoo state() flattening -/

/-- The global observation of a 2-key concrete scenario. -/
def gObsEx : Obs := [("a", [1]), ("b", [2])]

/-- The single local agent's observation in the same scenario. -/
def lObsEx : Obs := [("a", [3]), ("b", [4])]

/-- C9 counterexample: with two agents each holding keys `a` and `b`, the
code's `state()` emits all of the global agent's values before any local
agent's (`[1, 2, 3, 4]`), while an ordering primarily by sorted key and then
by agent index would interleave them (`[1, 3, 2, 4]`); the two disagree. -/
theorem state_order_counterexample :
    state_vector gObsEx [lObsEx] = [1, 2, 3, 4] ∧
    state_vector_key_major gObsEx [lObsEx] = [1, 3, 2, 4] ∧
    ¬ state_vector gObsEx [lObsEx] = state_vector_key_major gObsEx [lObsEx] := by
  refine ⟨rfl, rfl, by decide⟩

/-- Membership in `insertKey` is membership in the inputs. -/
lemma mem_insertKey {x k : String} {l : List String} :
    x ∈ insertKey k l ↔ x = k ∨ x ∈ l := by
  induction l with
  | nil => simp [insertKey]
  | cons y ys ih =>
    unfold insertKey
    by_cases h : keyLE k y = true
    · rw [if_pos h]
      simp [List.mem_cons]
    · rw [if_neg h]
      simp only [List.mem_cons, ih]
      tauto

/-- Sorting keys preserves membership. -/
lemma mem_sortKeys {x : String} {l : List String} :
    x ∈ sortKeys l ↔ x ∈ l := by
  induction l with
  | nil => simp [sortKeys]
  | cons y ys ih =>
    unfold sortKeys
    rw [mem_insertKey, ih, List.mem_cons]

/-- With pairwise-distinct keys, dictionary lookup of a present key returns
exactly the values of the pairs carrying that key. -/
lemma lookup_eq_filter_flatMap (obs : Obs) (hnd : (obs.map Prod.fst).Nodup)
    (k : String) (hk : k ∈ obs.map Prod.fst) :
    ((obs.lookup k).getD []) = (obs.filter (fun p => p.1 == k)).flatMap Prod.snd := by
  induction obs with
  | nil => cases hk
  | cons p rest ih =>
    obtain ⟨a, v⟩ := p
    rw [List.map_cons, List.nodup_cons] at hnd
    rw [List.map_cons, List.mem_cons] at hk
    by_cases hak : a = k
    · subst hak
      have hrest : rest.filter (fun p => p.1 == a) = [] := by
        rw [List.filter_eq_nil_iff]
        intro q hq hqa
        exact hnd.1 (List.mem_map.mpr ⟨q, hq, beq_iff_eq.mp hqa⟩)
      simp [List.lookup, List.filter_cons, hrest]
    · have hk' : k ∈ rest.map Prod.fst := by
        rcases hk with hk | hk
        · exact absurd hk.symm hak
        · exact hk
      have hbeq : (a == k) = false := beq_eq_false_iff_ne.mpr hak
      have hbeq' : (k == a) = false := beq_eq_false_iff_ne.mpr (Ne.symm hak)
      simp only [List.lookup, hbeq', List.filter_cons, hbeq, Bool.false_eq_true,
        if_false]
      exact ih hnd.2 hk'

/-- With pairwise-distinct keys the code's per-agent flattening agrees with
the filter-based restatement. -/
lemma flatten_observation_eq_spec (obs : Obs) (hnd : (obs.map Prod.fst).Nodup) :
    flatten_observation obs = flatten_observation_spec obs := by
  unfold flatten_observation flatten_observation_spec
  apply List.flatMap_congr
  intro k hk
  exact lookup_eq_filter_flatMap obs hnd k (mem_sortKeys.mp hk)

/-- C9 amended: `state()` is ordered primarily by agent — the global agent
first, then the local agents in datacenter-index order — and within each
agent's observation by sorted key name (stated with the filter-based
per-agent flattening; keys are distinct within each observation dict). -/
theorem state_vector_agent_major (g : Obs) (ls : List Obs)
    (hg : (g.map Prod.fst).Nodup) (hls : ∀ o ∈ ls, (o.map Prod.fst).Nodup) :
    state_vector g ls
      = flatten_observation_spec g ++ ls.flatMap flatten_observation_spec := by
  unfold state_vector
  rw [flatten_observation_eq_spec g hg]
  congr 1
  apply List.flatMap_congr
  intro o ho
  exact flatten_observation_eq_spec o (hls o ho)

/-- Witness for `state_vector_agent_major` at the concrete two-agent scenario. -/
theorem state_vector_agent_major_witness :
    state_vector gObsEx [lObsEx]
      = flatten_observation_spec gObsEx
          ++ [lObsEx].flatMap flatten_observation_spec := by
  apply state_vector_agent_major gObsEx [lObsEx] (by decide)
  intro o ho
  rw [List.mem_singleton] at ho
  subst ho
  decide

end GreenSched
